import Mathlib

/-!
Verification of the spatial-chunk position-relay subsystem
(`createRelaySystem` and its helpers).

JavaScript numbers are embedded as `Option ℚ`: `some q` is a finite value,
`none` stands for a non-finite value (NaN or an infinity).  Byte buffers are
`List ℕ`.  The helpers from `@latticexyz/utils` and `@latticexyz/phaserx`
that are not part of the shown source are modelled from the spec
(little-endian 4-byte signed integers, floor division by the chunk size,
inclusive chunk ranges covering an area) together with the standard
ECMAScript `Int32Array` conversion (wrap modulo 2^32, non-finite values
convert to 0).
-/

namespace Relay

/-- Source constant `PRECISION = 2`. -/
def PRECISION : ℕ := 2

/-- Source constant `UNRESPONSIVE_PLAYER_CLEANUP = 2_000` (sweep period, ms). -/
def UNRESPONSIVE_PLAYER_CLEANUP : ℤ := 2000

/-- Source constant `TIMEOUT = 1_000` (staleness timeout, ms). -/
def TIMEOUT : ℤ := 1000

/-- Source constant `RELAY_CHUNK_SIZE = 64`. -/
def RELAY_CHUNK_SIZE : ℤ := 64

/-- Source `toFixedPoint(n) = Math.floor(n * 10^PRECISION)`, on finite values. -/
def toFixedPoint (n : ℚ) : ℤ := ⌊n * 10 ^ PRECISION⌋

/-- Source `fromFixedPoint(n) = n / 10^PRECISION`. -/
def fromFixedPoint (n : ℤ) : ℚ := (n : ℚ) / 10 ^ PRECISION

/-- Source `toFixedPoint` on a JavaScript number: multiplying a non-finite
value and taking `Math.floor` keeps it non-finite, a finite value follows
`toFixedPoint`. -/
def toFixedPointJS (n : Option ℚ) : Option ℤ := n.map toFixedPoint

/-- ECMAScript `ToInt32`, applied when a number is stored into an
`Int32Array`: a non-finite value becomes 0, a finite (already floored) value
wraps into `[-2^31, 2^31)` modulo `2^32`. -/
def toInt32 : Option ℤ → ℤ
  | none => 0
  | some z => (z + 2 ^ 31) % 2 ^ 32 - 2 ^ 31

/-- Modelled from the spec: the four little-endian bytes of a 4-byte signed
integer (spec wire format: "little-endian 4-byte signed integers"). -/
def int32ToBytesLE (z : ℤ) : List ℕ :=
  [(z % 2 ^ 32).toNat % 256, (z % 2 ^ 32).toNat / 256 % 256,
   (z % 2 ^ 32).toNat / 65536 % 256, (z % 2 ^ 32).toNat / 16777216 % 256]

/-- Modelled from the spec: `Int32ArrayToUint8Array` from `@latticexyz/utils`
(not in the shown source) turns each number into the 4 little-endian bytes of
its `Int32Array` representation. -/
def Int32ArrayToUint8Array (l : List (Option ℤ)) : List (List ℕ) :=
  l.map (fun n => int32ToBytesLE (toInt32 n))

/-- Modelled from the spec: `concatUint8Arrays` concatenates byte arrays. -/
def concatUint8Arrays (l : List (List ℕ)) : List ℕ := l.flatten

/-- Modelled from the spec: read four little-endian bytes as one signed
4-byte integer. -/
def bytesToInt32LE (b0 b1 b2 b3 : ℕ) : ℤ :=
  if ((b0 : ℤ) + 256 * b1 + 65536 * b2 + 16777216 * b3) < 2 ^ 31
  then (b0 : ℤ) + 256 * b1 + 65536 * b2 + 16777216 * b3
  else (b0 : ℤ) + 256 * b1 + 65536 * b2 + 16777216 * b3 - 2 ^ 32

/-- Modelled from the spec: `Uint8ArrayToInt32Array` from `@latticexyz/utils`
(not in the shown source) reads a byte buffer as little-endian signed 4-byte
integers. -/
def Uint8ArrayToInt32Array : List ℕ → List ℤ
  | b0 :: b1 :: b2 :: b3 :: rest => bytesToInt32LE b0 b1 b2 b3 :: Uint8ArrayToInt32Array rest
  | _ => []

/-- Modelled from the spec: `splitUint8Arrays(data, [l1, l2])` splits a buffer
into consecutive pieces of the given lengths; a buffer of any other total
length is a protocol error (spec section 7: a payload whose length is not
28 bytes is a malformed-message error and the message is dropped). -/
def splitUint8Arrays (data : List ℕ) (l1 l2 : ℕ) : Option (List ℕ × List ℕ) :=
  if data.length = l1 + l2 then some (data.take l1, (data.drop l1).take l2) else none

/-- Source `encodeMessage(position, direction)`: quantize
`[...position, ...direction]` with `toFixedPoint`, store each value as an
int32, concatenate the little-endian bytes. -/
def encodeMessage (position direction : List (Option ℚ)) : List ℕ :=
  concatUint8Arrays (Int32ArrayToUint8Array ((position ++ direction).map toFixedPointJS))

/-- Source `decodeMessage(data)`: split into 12 position bytes and 16
direction bytes, read int32 values, dequantize with `fromFixedPoint`. -/
def decodeMessage (data : List ℕ) : Option (List ℚ × List ℚ) :=
  (splitUint8Arrays data 12 16).map fun pd =>
    ((Uint8ArrayToInt32Array pd.1).map fromFixedPoint,
     (Uint8ArrayToInt32Array pd.2).map fromFixedPoint)

/-- The quantized block of one scalar on the wire. -/
def scalarBlock (n : Option ℚ) : List ℕ := int32ToBytesLE (toInt32 (toFixedPointJS n))

/-- A chunk coordinate (`ChunkCoord` from `@latticexyz/phaserx`): the result
of floor-dividing a projected 2D coordinate by the chunk size. -/
structure ChunkCoord where
  x : ℤ
  y : ℤ
  deriving DecidableEq

/-- Modelled from the spec: `pixelToChunkCoord(point, chunkSize)` from
`@latticexyz/phaserx` (not in the shown source) floor-divides both
components by the chunk size (spec section 4.2). -/
def pixelToChunkCoord (p : ℚ × ℚ) (chunkSize : ℤ) : ChunkCoord :=
  ⟨⌊p.1 / (chunkSize : ℚ)⌋, ⌊p.2 / (chunkSize : ℚ)⌋⟩

/-- Source `createChunkTopicMessage(chunk)`: the topic string for a chunk. -/
def createChunkTopicMessage (chunk : ChunkCoord) : String :=
  "c(" ++ toString chunk.x ++ "," ++ toString chunk.y ++ ")"

/-- The per-entity state of the four player components used by
`createRelaySystem`; `none` means the entity does not have the component. -/
structure PlayerComponents where
  playerPosition : Option (ℚ × ℚ × ℚ)
  playerDirection : Option (ℚ × ℚ × ℚ × ℚ)
  playerRelayerChunkPosition : Option ChunkCoord
  playerLastMessage : Option ℤ
  deriving DecidableEq

/-- The ECS store restricted to the four player components: entities are
keyed by their address (`world.registerEntity({ id: address })`). -/
def ECSState : Type := String → PlayerComponents

/-- The component state of an entity holding none of the four player
components. -/
def clearedPlayerComponents : PlayerComponents :=
  { playerPosition := none
    playerDirection := none
    playerRelayerChunkPosition := none
    playerLastMessage := none }

/-- Source `removePlayerComponent(entity)`: removes PlayerPosition,
PlayerDirection, PlayerRelayerChunkPosition and PlayerLastMessage. -/
def removePlayerComponent (c : PlayerComponents) : PlayerComponents :=
  { c with
    playerPosition := none
    playerDirection := none
    playerRelayerChunkPosition := none
    playerLastMessage := none }

/-- The query of the removed-chunks subscription:
`Has(PlayerDirection), Has(PlayerPosition),
HasValue(PlayerRelayerChunkPosition, chunk)`. -/
def matchesRemovedChunkQuery (chunk : ChunkCoord) (c : PlayerComponents) : Bool :=
  c.playerDirection.isSome && c.playerPosition.isSome &&
    decide (c.playerRelayerChunkPosition = some chunk)

/-- Source handler of `removedChunks$`: run the query, then remove all four
player components from every matching entity (the `relay.unsubscribe` call
has no effect on the ECS state). -/
def removedChunkHandler (chunk : ChunkCoord) (s : ECSState) : ECSState :=
  fun a => if matchesRemovedChunkQuery chunk (s a) then removePlayerComponent (s a) else s a

/-- An inbound relay event: `{ message, address }` with `message.data` the
payload bytes and `address` the sender address supplied by the transport. -/
structure RelayEvent where
  data : List ℕ
  address : String

/-- Source inbound-message handler (`defineRxSystem(world, relay.event$, ...)`):
decode the payload, drop the message if the sender is the local address,
drop it if the chunk of the decoded position is not visible, otherwise
register the sender entity and set PlayerPosition, PlayerDirection and
PlayerLastMessage (timestamped with `Date.now()`, passed here as `now`).
`visibleChunks` is the chunk map of `createChunks`; the source checks
`visibleChunks.current.has(chunk) && visibleChunks.current.get(chunk)`,
so a message is accepted only when the map holds `true` for the chunk. -/
def relayEventHandler (connectedAddress : String) (visibleChunks : ChunkCoord → Option Bool)
    (now : ℤ) (ev : RelayEvent) (s : ECSState) : ECSState :=
  match decodeMessage ev.data with
  | none => s
  | some pd =>
    let x := pd.1.getD 0 0
    let y := pd.1.getD 1 0
    let z := pd.1.getD 2 0
    let qx := pd.2.getD 0 0
    let qy := pd.2.getD 1 0
    let qz := pd.2.getD 2 0
    let qw := pd.2.getD 3 0
    if ev.address = connectedAddress then s
    else
      let playerChunk := pixelToChunkCoord (x, z) RELAY_CHUNK_SIZE
      if visibleChunks playerChunk = some true then
        fun a =>
          if a = ev.address then
            { s a with
              playerPosition := some (x, y, z)
              playerDirection := some (qx, qy, qz, qw)
              playerLastMessage := some now }
          else s a
      else s

/-- Source liveness sweep (`defineRxSystem(world, timer(...), ...)`):
for every entity with PlayerLastMessage, remove all player components when
`lastMessage < Date.now() - TIMEOUT`. -/
def livenessSweep (now : ℤ) (s : ECSState) : ECSState :=
  fun a =>
    match (s a).playerLastMessage with
    | none => s a
    | some lastMessage =>
        if lastMessage < now - TIMEOUT then removePlayerComponent (s a) else s a

/-- Source `relayPositionAndDirection(position, direction)`: push the encoded
message on the topic of the current chunk.  The source performs no
finiteness check on the pose before encoding. -/
def relayPositionAndDirection (currentChunk : ChunkCoord)
    (position direction : List (Option ℚ)) : String × List ℕ :=
  (createChunkTopicMessage currentChunk, encodeMessage position direction)

/-- An area rectangle (`Area` from `@latticexyz/utils`). -/
structure Area where
  x : ℚ
  y : ℚ
  width : ℚ
  height : ℚ
  deriving DecidableEq

/-- Source `HALF_LENGTH = RELAY_CHUNK_SIZE`. -/
def HALF_LENGTH : ℚ := (RELAY_CHUNK_SIZE : ℚ)

/-- Source `currentArea$` map: the area derived from a position sample
`c` is `{ x: c.x - HALF_LENGTH, y: c.z - HALF_LENGTH, width: HALF_LENGTH * 2,
height: HALF_LENGTH * 2 }` (the 2D projection uses the x and z world
coordinates). -/
def currentArea (c : ℚ × ℚ × ℚ) : Area :=
  ⟨c.1 - HALF_LENGTH, c.2.2 - HALF_LENGTH, HALF_LENGTH * 2, HALF_LENGTH * 2⟩

/-- Modelled from the spec: `getChunksInArea` / `createChunks` from
`@latticexyz/phaserx` (not in the shown source) cover an area with every
chunk from the chunk of the top-left corner to the chunk of the
bottom-right corner `(x + width, y + height)`, both inclusive ("the set of
ChunkCoords whose chunk overlaps the current Area", "covers a 3×3-chunk
neighborhood when H=S"). -/
def chunkInArea (a : Area) (chunkSize : ℤ) (c : ChunkCoord) : Prop :=
  (pixelToChunkCoord (a.x, a.y) chunkSize).x ≤ c.x ∧
    c.x ≤ (pixelToChunkCoord (a.x + a.width, a.y + a.height) chunkSize).x ∧
    (pixelToChunkCoord (a.x, a.y) chunkSize).y ≤ c.y ∧
    c.y ≤ (pixelToChunkCoord (a.x + a.width, a.y + a.height) chunkSize).y

instance (a : Area) (chunkSize : ℤ) (c : ChunkCoord) : Decidable (chunkInArea a chunkSize c) := by
  unfold chunkInArea
  infer_instance

/-- Modelled from the spec: the diffing of `createChunks` emits a "removed
chunk" event for every chunk covered by the previous area but not by the new
area. -/
def removedChunk (oldArea newArea : Area) (chunkSize : ℤ) (c : ChunkCoord) : Prop :=
  chunkInArea oldArea chunkSize c ∧ ¬ chunkInArea newArea chunkSize c

/-- Modelled from the spec: the diffing of `createChunks` emits an "added
chunk" event for every chunk covered by the new area but not by the previous
area. -/
def addedChunk (oldArea newArea : Area) (chunkSize : ℤ) (c : ChunkCoord) : Prop :=
  chunkInArea newArea chunkSize c ∧ ¬ chunkInArea oldArea chunkSize c

instance (o n : Area) (chunkSize : ℤ) (c : ChunkCoord) :
    Decidable (removedChunk o n chunkSize c) := by
  unfold removedChunk
  infer_instance

instance (o n : Area) (chunkSize : ℤ) (c : ChunkCoord) :
    Decidable (addedChunk o n chunkSize c) := by
  unfold addedChunk
  infer_instance

/-- Replacing a non-finite scalar by the finite scalar 0: the substitution
under which the source encoder is invariant. -/
def fillNonFinite : Option ℚ → Option ℚ
  | none => some 0
  | some v => some v

/-! ## Helper lemmas -/

lemma toInt32_range (n : Option ℤ) : -2 ^ 31 ≤ toInt32 n ∧ toInt32 n < 2 ^ 31 := by
  cases n with
  | none => constructor <;> norm_num [toInt32]
  | some z =>
      simp only [toInt32]
      constructor <;> omega

lemma toInt32_of_range (z : ℤ) (h1 : -2 ^ 31 ≤ z) (h2 : z < 2 ^ 31) :
    toInt32 (some z) = z := by
  simp only [toInt32]
  omega

lemma fixed_roundtrip (z : ℤ) : toFixedPoint (fromFixedPoint z) = z := by
  unfold toFixedPoint fromFixedPoint
  rw [div_mul_cancel₀ _ (by norm_num : ((10 : ℚ) ^ PRECISION) ≠ 0)]
  exact Int.floor_intCast z

lemma uint8_block (z : ℤ) (rest : List ℕ) (h1 : -2 ^ 31 ≤ z) (h2 : z < 2 ^ 31) :
    Uint8ArrayToInt32Array (int32ToBytesLE z ++ rest) = z :: Uint8ArrayToInt32Array rest := by
  have harith : bytesToInt32LE ((z % 2 ^ 32).toNat % 256) ((z % 2 ^ 32).toNat / 256 % 256)
      ((z % 2 ^ 32).toNat / 65536 % 256) ((z % 2 ^ 32).toNat / 16777216 % 256) = z := by
    unfold bytesToInt32LE
    split <;> omega
  exact congrArg (fun w => w :: Uint8ArrayToInt32Array rest) harith

lemma scalarBlock_length (n : Option ℚ) : (scalarBlock n).length = 4 := rfl

lemma encode_flatten (p q : List (Option ℚ)) :
    encodeMessage p q = ((p ++ q).map scalarBlock).flatten := by
  unfold encodeMessage concatUint8Arrays Int32ArrayToUint8Array scalarBlock
  rw [List.map_map]
  rfl

lemma flatten_blocks_length (l : List (Option ℚ)) :
    ((l.map scalarBlock).flatten).length = 4 * l.length := by
  induction l with
  | nil => rfl
  | cons hd tl ih =>
      rw [List.map_cons, List.flatten_cons, List.length_append, ih, scalarBlock_length,
        List.length_cons]
      omega

lemma uint8_flatten (l : List (Option ℚ)) :
    Uint8ArrayToInt32Array ((l.map scalarBlock).flatten)
      = l.map (fun n => toInt32 (toFixedPointJS n)) := by
  induction l with
  | nil => rfl
  | cons hd tl ih =>
      rw [List.map_cons, List.flatten_cons]
      rw [show scalarBlock hd = int32ToBytesLE (toInt32 (toFixedPointJS hd)) from rfl]
      rw [uint8_block _ _ (toInt32_range _).1 (toInt32_range _).2, ih, List.map_cons]

lemma flatten_blocks_take (p q : List (Option ℚ)) :
    (((p ++ q).map scalarBlock).flatten).take (4 * p.length) = (p.map scalarBlock).flatten := by
  induction p with
  | nil => rfl
  | cons hd tl ih =>
      rw [List.cons_append, List.map_cons, List.flatten_cons, List.map_cons, List.flatten_cons,
        List.take_append_eq_append_take]
      rw [List.take_of_length_le (by rw [scalarBlock_length, List.length_cons]; omega),
        scalarBlock_length]
      rw [show 4 * (hd :: tl).length - 4 = 4 * tl.length by rw [List.length_cons]; omega, ih]

lemma flatten_blocks_drop (p q : List (Option ℚ)) :
    (((p ++ q).map scalarBlock).flatten).drop (4 * p.length) = (q.map scalarBlock).flatten := by
  induction p with
  | nil => rfl
  | cons hd tl ih =>
      rw [List.cons_append, List.map_cons, List.flatten_cons,
        List.drop_append_eq_append_drop]
      rw [List.drop_of_length_le (by rw [scalarBlock_length, List.length_cons]; omega),
        scalarBlock_length]
      rw [show 4 * (hd :: tl).length - 4 = 4 * tl.length by rw [List.length_cons]; omega, ih,
        List.nil_append]

lemma decode_encode (p q : List (Option ℚ)) (hp : p.length = 3) (hq : q.length = 4) :
    decodeMessage (encodeMessage p q)
      = some (p.map (fun n => fromFixedPoint (toInt32 (toFixedPointJS n))),
              q.map (fun n => fromFixedPoint (toInt32 (toFixedPointJS n)))) := by
  have hlen : (encodeMessage p q).length = 28 := by
    rw [encode_flatten, flatten_blocks_length, List.length_append, hp, hq]
  have htake : (encodeMessage p q).take 12 = (p.map scalarBlock).flatten := by
    rw [encode_flatten, show (12 : ℕ) = 4 * p.length by rw [hp], flatten_blocks_take]
  have hdrop : (encodeMessage p q).drop 12 = (q.map scalarBlock).flatten := by
    rw [encode_flatten, show (12 : ℕ) = 4 * p.length by rw [hp], flatten_blocks_drop]
  unfold decodeMessage splitUint8Arrays
  rw [if_pos (by rw [hlen])]
  rw [htake, hdrop, List.take_of_length_le (by rw [flatten_blocks_length, hq])]
  simp [uint8_flatten, List.map_map, Function.comp]

lemma scalarBlock_requantize (n : Option ℚ) :
    scalarBlock (some (fromFixedPoint (toInt32 (toFixedPointJS n)))) = scalarBlock n := by
  unfold scalarBlock
  rw [show toFixedPointJS (some (fromFixedPoint (toInt32 (toFixedPointJS n))))
      = some (toFixedPoint (fromFixedPoint (toInt32 (toFixedPointJS n)))) from rfl]
  rw [fixed_roundtrip, toInt32_of_range _ (toInt32_range _).1 (toInt32_range _).2]

lemma scalarBlock_fillNonFinite (n : Option ℚ) :
    scalarBlock (fillNonFinite n) = scalarBlock n := by
  cases n with
  | none =>
      refine congrArg int32ToBytesLE ?_
      rw [show toFixedPointJS (fillNonFinite none) = some (toFixedPoint 0) from rfl]
      rw [show toFixedPoint 0 = 0 by norm_num [toFixedPoint]]
      rw [toInt32_of_range 0 (by norm_num) (by norm_num)]
      rfl
  | some v => rfl

lemma relayEventHandler_none (ca : String) (vc : ChunkCoord → Option Bool) (now : ℤ)
    (ev : RelayEvent) (s : ECSState) (hdec : decodeMessage ev.data = none) :
    relayEventHandler ca vc now ev s = s := by
  unfold relayEventHandler
  rw [hdec]

lemma relayEventHandler_some (ca : String) (vc : ChunkCoord → Option Bool) (now : ℤ)
    (ev : RelayEvent) (s : ECSState) (p q : List ℚ)
    (hdec : decodeMessage ev.data = some (p, q)) :
    relayEventHandler ca vc now ev s =
      if ev.address = ca then s
      else if vc (pixelToChunkCoord (p.getD 0 0, p.getD 2 0) RELAY_CHUNK_SIZE) = some true then
        (fun a =>
          if a = ev.address then
            { s a with
              playerPosition := some (p.getD 0 0, p.getD 1 0, p.getD 2 0)
              playerDirection := some (q.getD 0 0, q.getD 1 0, q.getD 2 0, q.getD 3 0)
              playerLastMessage := some now }
          else s a)
      else s := by
  unfold relayEventHandler
  rw [hdec]

lemma livenessSweep_some (now : ℤ) (s : ECSState) (a : String) (l : ℤ)
    (hl : (s a).playerLastMessage = some l) :
    livenessSweep now s a
      = if l < now - TIMEOUT then removePlayerComponent (s a) else s a := by
  unfold livenessSweep
  rw [hl]

lemma livenessSweep_none (now : ℤ) (s : ECSState) (a : String)
    (hl : (s a).playerLastMessage = none) :
    livenessSweep now s a = s a := by
  unfold livenessSweep
  rw [hl]

lemma map_scalarBlock_requantize (l : List (Option ℚ)) :
    (l.map (fun n => some (fromFixedPoint (toInt32 (toFixedPointJS n))))).map scalarBlock
      = l.map scalarBlock := by
  induction l with
  | nil => rfl
  | cons hd tl ih =>
      rw [List.map_cons, List.map_cons, List.map_cons, scalarBlock_requantize, ih]

lemma map_scalarBlock_fillNonFinite (l : List (Option ℚ)) :
    (l.map fillNonFinite).map scalarBlock = l.map scalarBlock := by
  induction l with
  | nil => rfl
  | cons hd tl ih =>
      rw [List.map_cons, List.map_cons, List.map_cons, scalarBlock_fillNonFinite, ih]

/-! ## Claims -/

/-- Claim C1 (amended): for every finite scalar `v` whose quantized value
`floor(v * 100)` fits in a signed 4-byte integer, decoding the encoding of a
scalar list containing `v` yields `floor(v * 100) / 100` in that position
(truncation toward negative infinity, not rounding); and unconditionally the
decode of an encoded message always succeeds and re-encoding it is a fixed
point: `encode(decode(encode(x))) = encode(x)`.  (The in-range hypothesis is
forced by the `Int32Array` wrap-around exhibited in the counterexample.) -/
theorem C1_quantization :
    (∀ (v : ℚ) (p2 p3 d1 d2 d3 d4 : Option ℚ),
      -2 ^ 31 ≤ toFixedPoint v → toFixedPoint v < 2 ^ 31 →
      (decodeMessage (encodeMessage [some v, p2, p3] [d1, d2, d3, d4])).map
          (fun r => r.1.getD 0 0)
        = some ((⌊v * 100⌋ : ℚ) / 100))
    ∧ (∀ a b c d e f g : Option ℚ,
        (decodeMessage (encodeMessage [a, b, c] [d, e, f, g])).isSome = true)
    ∧ (∀ (a b c d e f g : Option ℚ) (p q : List ℚ),
        decodeMessage (encodeMessage [a, b, c] [d, e, f, g]) = some (p, q) →
        encodeMessage (p.map some) (q.map some) = encodeMessage [a, b, c] [d, e, f, g]) := by
  refine ⟨?_, ?_, ?_⟩
  · intro v p2 p3 d1 d2 d3 d4 h1 h2
    rw [decode_encode [some v, p2, p3] [d1, d2, d3, d4] (by rfl) (by rfl)]
    rw [Option.map_some']
    rw [List.map_cons, show (toFixedPointJS (some v)) = some (toFixedPoint v) from rfl,
      toInt32_of_range _ h1 h2]
    show some (fromFixedPoint (toFixedPoint v)) = _
    unfold fromFixedPoint toFixedPoint PRECISION
    norm_num
  · intro a b c d e f g
    rw [decode_encode [a, b, c] [d, e, f, g] (by rfl) (by rfl)]
    rfl
  · intro a b c d e f g p q h
    rw [decode_encode [a, b, c] [d, e, f, g] (by rfl) (by rfl)] at h
    have h' := Option.some.inj h
    have hp : p = [a, b, c].map (fun n => fromFixedPoint (toInt32 (toFixedPointJS n))) :=
      (congrArg Prod.fst h').symm
    have hq : q = [d, e, f, g].map (fun n => fromFixedPoint (toInt32 (toFixedPointJS n))) :=
      (congrArg Prod.snd h').symm
    subst hp
    subst hq
    rw [encode_flatten, encode_flatten]
    refine congrArg List.flatten ?_
    rw [← List.map_append, ← List.map_append]
    simpa [List.map_map, Function.comp] using
      map_scalarBlock_requantize ([a, b, c] ++ [d, e, f, g])

/-- Claim C1 witness: at `v = 201/200 = 1.005` (the spec scenario value) the
in-range hypotheses hold and decoding the encoding yields
`floor(1.005 * 100) / 100 = 1`; the fixed-point part applies to the decode of
a concrete message. -/
theorem C1_quantization_witness :
    ((-2 ^ 31 ≤ toFixedPoint (201 / 200 : ℚ) ∧ toFixedPoint (201 / 200 : ℚ) < 2 ^ 31)
      ∧ (decodeMessage (encodeMessage [some (201 / 200 : ℚ), some 0, some 0]
            [some 0, some 0, some 0, some 1])).map (fun r => r.1.getD 0 0)
          = some ((⌊(201 / 200 : ℚ) * 100⌋ : ℚ) / 100))
    ∧ encodeMessage ([(1 : ℚ), 0, 0].map some) ([(0 : ℚ), 0, 0, 1].map some)
        = encodeMessage [some 1, some 0, some 0] [some 0, some 0, some 0, some 1] :=
  ⟨⟨⟨by norm_num [toFixedPoint, PRECISION], by norm_num [toFixedPoint, PRECISION]⟩,
    C1_quantization.1 (201 / 200) (some 0) (some 0) (some 0) (some 0) (some 0) (some 1)
      (by norm_num [toFixedPoint, PRECISION]) (by norm_num [toFixedPoint, PRECISION])⟩,
   C1_quantization.2.2 (some 1) (some 0) (some 0) (some 0) (some 0) (some 0) (some 1)
     [1, 0, 0] [0, 0, 0, 1]
     (by
       rw [decode_encode [some 1, some 0, some 0] [some 0, some 0, some 0, some 1]
         (by rfl) (by rfl)]
       norm_num [toFixedPointJS, toFixedPoint, toInt32, fromFixedPoint, PRECISION])⟩

/-- Claim C1 counterexample: at the finite scalar `v = 2^25 = 33554432` the
quantized value `floor(v * 100) = 3355443200` exceeds `2^31 - 1`, the int32
store wraps it to `-939524096`, and decoding the encoding yields
`-9395240.96`, not `floor(v * 100) / 100 = 33554432`. -/
theorem C1_cex :
    ¬ ((decodeMessage (encodeMessage [some (2 ^ 25 : ℚ), some 0, some 0]
          [some 0, some 0, some 0, some 0])).map (fun r => r.1.getD 0 0)
        = some ((⌊(2 ^ 25 : ℚ) * 100⌋ : ℚ) / 100)) := by
  rw [decode_encode [some (2 ^ 25 : ℚ), some 0, some 0] [some 0, some 0, some 0, some 0]
    (by rfl) (by rfl)]
  norm_num [toFixedPointJS, toFixedPoint, toInt32, fromFixedPoint, PRECISION]

/-- Claim C2 (amended): for position scalars `a b c` and direction scalars
`d e f g` whose quantized values all fit in a signed 4-byte integer,
`encodeMessage` produces exactly 28 bytes: the concatenation, in order
`[posX, posY, posZ, dirX, dirY, dirZ, dirW]`, of the 4 little-endian bytes of
the signed integer `floor(value * 100)` of each scalar; and `decodeMessage`
splits the first 12 bytes into the 3 position scalars and the next 16 bytes
into the 4 direction scalars.  (The in-range hypothesis on each quantized
value is forced by the `Int32Array` wrap-around exhibited in the
counterexample; the 28-byte length holds for arbitrary finite scalars.) -/
theorem C2_wire_layout (a b c d e f g : ℚ)
    (h : ∀ v ∈ [a, b, c, d, e, f, g], -2 ^ 31 ≤ toFixedPoint v ∧ toFixedPoint v < 2 ^ 31) :
    encodeMessage [some a, some b, some c] [some d, some e, some f, some g]
      = int32ToBytesLE (toFixedPoint a) ++ (int32ToBytesLE (toFixedPoint b)
        ++ (int32ToBytesLE (toFixedPoint c) ++ (int32ToBytesLE (toFixedPoint d)
        ++ (int32ToBytesLE (toFixedPoint e) ++ (int32ToBytesLE (toFixedPoint f)
        ++ int32ToBytesLE (toFixedPoint g))))))
    ∧ (encodeMessage [some a, some b, some c] [some d, some e, some f, some g]).length = 28
    ∧ decodeMessage (encodeMessage [some a, some b, some c] [some d, some e, some f, some g])
        = some ([fromFixedPoint (toFixedPoint a), fromFixedPoint (toFixedPoint b),
                 fromFixedPoint (toFixedPoint c)],
                [fromFixedPoint (toFixedPoint d), fromFixedPoint (toFixedPoint e),
                 fromFixedPoint (toFixedPoint f), fromFixedPoint (toFixedPoint g)]) := by
  have ha := toInt32_of_range _ (h a (by simp)).1 (h a (by simp)).2
  have hb := toInt32_of_range _ (h b (by simp)).1 (h b (by simp)).2
  have hc := toInt32_of_range _ (h c (by simp)).1 (h c (by simp)).2
  have hd := toInt32_of_range _ (h d (by simp)).1 (h d (by simp)).2
  have he := toInt32_of_range _ (h e (by simp)).1 (h e (by simp)).2
  have hf := toInt32_of_range _ (h f (by simp)).1 (h f (by simp)).2
  have hg := toInt32_of_range _ (h g (by simp)).1 (h g (by simp)).2
  refine ⟨?_, ?_, ?_⟩
  · rw [encode_flatten]
    show (List.map scalarBlock
      [some a, some b, some c, some d, some e, some f, some g]).flatten = _
    unfold scalarBlock toFixedPointJS
    simp only [List.map_cons, List.map_nil, Option.map_some', List.flatten_cons,
      List.flatten_nil, List.append_nil]
    rw [ha, hb, hc, hd, he, hf, hg]
  · rw [encode_flatten, flatten_blocks_length]
    rfl
  · rw [decode_encode [some a, some b, some c] [some d, some e, some f, some g]
      (by rfl) (by rfl)]
    unfold toFixedPointJS
    simp only [List.map_cons, List.map_nil, Option.map_some']
    rw [ha, hb, hc, hd, he, hf, hg]

/-- Claim C2 witness: at the spec scenario pose
`position = [1.005, -2.34, 0], direction = [0, 0, 0, 1]` the in-range
hypothesis holds and the message is the 28-byte concatenation of the
little-endian int32 blocks of `[100, -234, 0, 0, 0, 0, 100]`. -/
theorem C2_wire_layout_witness :
    (∀ v ∈ [(201 / 200 : ℚ), -234 / 100, 0, 0, 0, 0, 1],
      -2 ^ 31 ≤ toFixedPoint v ∧ toFixedPoint v < 2 ^ 31)
    ∧ (encodeMessage [some (201 / 200 : ℚ), some (-234 / 100), some 0]
        [some 0, some 0, some 0, some 1]).length = 28 :=
  ⟨by
    intro v hv
    fin_cases hv <;> constructor <;> norm_num [toFixedPoint, PRECISION],
   (C2_wire_layout (201 / 200) (-234 / 100) 0 0 0 0 1
     (by
       intro v hv
       fin_cases hv <;> constructor <;> norm_num [toFixedPoint, PRECISION])).2.1⟩

/-- Claim C2 counterexample: at the finite scalar `2^26 = 67108864` the first
4-byte group of the encoded message holds the wrapped int32 `-1879048192`,
not the claimed `floor(2^26 * 100) = 6710886400`, which does not fit in a
signed 4-byte integer. -/
theorem C2_cex :
    (Uint8ArrayToInt32Array (encodeMessage [some (2 ^ 26 : ℚ), some 0, some 0]
        [some 0, some 0, some 0, some 0])).getD 0 0 ≠ toFixedPoint (2 ^ 26 : ℚ) := by
  rw [encode_flatten, uint8_flatten]
  norm_num [toFixedPointJS, toFixedPoint, toInt32, PRECISION]

/-- Claim C9 (amended): a pose sample containing a non-finite scalar is NOT
rejected before quantization: quantization propagates the non-finite value
and the int32 conversion turns it into 0, so `encodeMessage` still produces
the same well-defined 28-byte message as if each non-finite lane held the
finite scalar 0; no lane of the published message is ever undefined. -/
theorem C9_nonfinite_encoding :
    toFixedPointJS none = none ∧ toInt32 none = 0
    ∧ (∀ pos dir : List (Option ℚ),
        encodeMessage pos dir = encodeMessage (pos.map fillNonFinite) (dir.map fillNonFinite))
    ∧ (∀ pos dir : List (Option ℚ),
        pos.length = 3 → dir.length = 4 → (encodeMessage pos dir).length = 28) := by
  refine ⟨rfl, rfl, ?_, ?_⟩
  · intro pos dir
    rw [encode_flatten, encode_flatten, ← List.map_append]
    exact (congrArg List.flatten (map_scalarBlock_fillNonFinite (pos ++ dir))).symm
  · intro pos dir hp hq
    rw [encode_flatten, flatten_blocks_length, List.length_append, hp, hq]

/-- Claim C9 witness: for the pose `position = [NaN, 0, 0]`,
`direction = [0, 0, 0, 1]` the handler publishes the same 28-byte message as
for `position = [0, 0, 0]`. -/
theorem C9_nonfinite_encoding_witness :
    encodeMessage [none, some 0, some 0] [some 0, some 0, some 0, some 1]
      = encodeMessage ([none, some 0, some 0].map fillNonFinite)
          ([some 0, some 0, some 0, some 1].map fillNonFinite)
    ∧ (encodeMessage [none, some 0, some 0] [some 0, some 0, some 0, some 1]).length = 28 :=
  ⟨C9_nonfinite_encoding.2.2.1 [none, some 0, some 0] [some 0, some 0, some 0, some 1],
   C9_nonfinite_encoding.2.2.2 [none, some 0, some 0] [some 0, some 0, some 0, some 1] rfl rfl⟩

/-- Claim C9 counterexample: the pose sample `position = [NaN, 0, 0]`,
`direction = [0, 0, 0, 1]` is not rejected: `relayPositionAndDirection`
publishes a (well-defined) 28-byte message on the chunk topic, identical to
the message of the all-finite pose `position = [0, 0, 0]`. -/
theorem C9_cex :
    (relayPositionAndDirection ⟨0, 0⟩ [none, some 0, some 0]
        [some 0, some 0, some 0, some 1]).2
      = encodeMessage [some 0, some 0, some 0] [some 0, some 0, some 0, some 1]
    ∧ (relayPositionAndDirection ⟨0, 0⟩ [none, some 0, some 0]
        [some 0, some 0, some 0, some 1]).2.length = 28
    ∧ (relayPositionAndDirection ⟨0, 0⟩ [none, some 0, some 0]
        [some 0, some 0, some 0, some 1]).1 = "c(0,0)" := by
  have h90 : scalarBlock (some 0) = scalarBlock none := scalarBlock_fillNonFinite none
  refine ⟨?_, ?_, rfl⟩
  · show encodeMessage [none, some 0, some 0] [some 0, some 0, some 0, some 1] = _
    rw [encode_flatten, encode_flatten]
    refine congrArg List.flatten ?_
    show List.map scalarBlock [none, some 0, some 0, some 0, some 0, some 0, some 1]
      = List.map scalarBlock [some 0, some 0, some 0, some 0, some 0, some 0, some 1]
    simp only [List.map_cons, List.map_nil, h90]
  · show (encodeMessage [none, some 0, some 0] [some 0, some 0, some 0, some 1]).length = 28
    rw [encode_flatten, flatten_blocks_length]
    rfl

/-- Claim C3: on a removed-chunk event for chunk `c`, every entity matching
the eviction query (has PlayerDirection, has PlayerPosition, and
PlayerRelayerChunkPosition equal to `c`) has all four player components
cleared together, every entity not matching the query is untouched, and in
particular every entity tied to a different chunk is untouched. -/
theorem C3_chunk_eviction (chunk : ChunkCoord) (s : ECSState) :
    (∀ a, matchesRemovedChunkQuery chunk (s a) = true →
      removedChunkHandler chunk s a = clearedPlayerComponents)
    ∧ (∀ a, matchesRemovedChunkQuery chunk (s a) = false →
      removedChunkHandler chunk s a = s a)
    ∧ (∀ a c2, (s a).playerRelayerChunkPosition = some c2 → c2 ≠ chunk →
      removedChunkHandler chunk s a = s a) := by
  refine ⟨fun a h => ?_, fun a h => ?_, fun a c2 hc hne => ?_⟩
  · unfold removedChunkHandler
    rw [if_pos h]
    rfl
  · unfold removedChunkHandler
    rw [if_neg (by rw [h]; exact Bool.false_ne_true)]
  · unfold removedChunkHandler
    rw [if_neg]
    unfold matchesRemovedChunkQuery
    rw [hc]
    simp [hne]

/-- Claim C3 witness: in a state where entity `"p"` holds all four components
with chunk `(0,0)` and entity `"q"` holds chunk `(5,5)`, the removed-chunk
event for `(0,0)` clears `"p"` entirely and leaves `"q"` untouched. -/
theorem C3_chunk_eviction_witness :
    matchesRemovedChunkQuery ⟨0, 0⟩
        ((fun _ => (⟨some (0, 0, 0), some (0, 0, 0, 1), some ⟨0, 0⟩, some 5⟩ : PlayerComponents)) "p")
      = true
    ∧ removedChunkHandler ⟨0, 0⟩
        (fun _ => (⟨some (0, 0, 0), some (0, 0, 0, 1), some ⟨0, 0⟩, some 5⟩ : PlayerComponents)) "p"
      = clearedPlayerComponents
    ∧ removedChunkHandler ⟨0, 0⟩
        (fun _ => (⟨some (0, 0, 0), some (0, 0, 0, 1), some ⟨5, 5⟩, some 5⟩ : PlayerComponents)) "q"
      = (fun _ => (⟨some (0, 0, 0), some (0, 0, 0, 1), some ⟨5, 5⟩, some 5⟩ : PlayerComponents)) "q" :=
  ⟨rfl,
   (C3_chunk_eviction ⟨0, 0⟩
     (fun _ => ⟨some (0, 0, 0), some (0, 0, 0, 1), some ⟨0, 0⟩, some 5⟩)).1 "p" rfl,
   (C3_chunk_eviction ⟨0, 0⟩
     (fun _ => ⟨some (0, 0, 0), some (0, 0, 0, 1), some ⟨5, 5⟩, some 5⟩)).2.2 "q" ⟨5, 5⟩ rfl
     (by decide)⟩

/-- Claim C4: an inbound message whose payload length is not exactly 28 bytes
is dropped: the handler leaves the whole ECS state unchanged. -/
theorem C4_malformed_dropped (ca : String) (vc : ChunkCoord → Option Bool) (now : ℤ)
    (ev : RelayEvent) (s : ECSState) (h : ev.data.length ≠ 28) :
    relayEventHandler ca vc now ev s = s := by
  have hdec : decodeMessage ev.data = none := by
    unfold decodeMessage splitUint8Arrays
    rw [if_neg (fun hc => h (by simpa using hc))]
    rfl
  exact relayEventHandler_none ca vc now ev s hdec

/-- Claim C4 witness: a 1-byte message from a foreign sender leaves a
concrete state unchanged. -/
theorem C4_malformed_dropped_witness :
    (([7] : List ℕ).length ≠ 28)
    ∧ relayEventHandler "me" (fun _ => some true) 0 ⟨[7], "peer"⟩
        (fun _ => clearedPlayerComponents)
      = (fun _ => clearedPlayerComponents) :=
  ⟨by decide,
   C4_malformed_dropped "me" (fun _ => some true) 0 ⟨[7], "peer"⟩
     (fun _ => clearedPlayerComponents) (by decide)⟩

/-- Claim C5: an inbound message that decodes correctly, whose sender differs
from the local address, and whose decoded-position chunk is not in the
visible-chunk map, is dropped: the handler leaves the ECS state unchanged. -/
theorem C5_visibility_gate (ca : String) (vc : ChunkCoord → Option Bool) (now : ℤ)
    (ev : RelayEvent) (s : ECSState) (p q : List ℚ)
    (hdec : decodeMessage ev.data = some (p, q))
    (hself : ev.address ≠ ca)
    (hvis : vc (pixelToChunkCoord (p.getD 0 0, p.getD 2 0) RELAY_CHUNK_SIZE) = none) :
    relayEventHandler ca vc now ev s = s := by
  rw [relayEventHandler_some ca vc now ev s p q hdec, if_neg hself,
    if_neg (by rw [hvis]; exact fun hc => Option.noConfusion hc)]

/-- Claim C5 witness: a correctly decoding 28-byte message at position
`(1, 0, 0)` (chunk `(0,0)`) from the foreign sender `"peer"` is dropped when
the visible-chunk map is empty. -/
theorem C5_visibility_gate_witness :
    decodeMessage (encodeMessage [some 1, some 0, some 0] [some 0, some 0, some 0, some 1])
      = some ([1, 0, 0], [0, 0, 0, 1])
    ∧ ("peer" ≠ "me")
    ∧ ((fun (_ : ChunkCoord) => (none : Option Bool))
        (pixelToChunkCoord (([(1 : ℚ), 0, 0].getD 0 0), ([(1 : ℚ), 0, 0].getD 2 0))
          RELAY_CHUNK_SIZE) = none)
    ∧ relayEventHandler "me" (fun _ => none) 0
        ⟨encodeMessage [some 1, some 0, some 0] [some 0, some 0, some 0, some 1], "peer"⟩
        (fun _ => clearedPlayerComponents)
      = (fun _ => clearedPlayerComponents) := by
  have hdec : decodeMessage (encodeMessage [some 1, some 0, some 0]
      [some 0, some 0, some 0, some 1]) = some ([1, 0, 0], [0, 0, 0, 1]) := by
    rw [decode_encode [some 1, some 0, some 0] [some 0, some 0, some 0, some 1]
      (by rfl) (by rfl)]
    norm_num [toFixedPointJS, toFixedPoint, toInt32, fromFixedPoint, PRECISION]
  exact ⟨hdec, by decide, rfl,
    C5_visibility_gate "me" (fun _ => none) 0
      ⟨encodeMessage [some 1, some 0, some 0] [some 0, some 0, some 0, some 1], "peer"⟩
      (fun _ => clearedPlayerComponents) [1, 0, 0] [0, 0, 0, 1] hdec (by decide) rfl⟩

/-- Claim C6: an inbound message whose sender address equals the locally
connected address is dropped regardless of its content: the handler leaves
the ECS state unchanged. -/
theorem C6_self_suppression (ca : String) (vc : ChunkCoord → Option Bool) (now : ℤ)
    (ev : RelayEvent) (s : ECSState) (h : ev.address = ca) :
    relayEventHandler ca vc now ev s = s := by
  cases hdec : decodeMessage ev.data with
  | none => exact relayEventHandler_none ca vc now ev s hdec
  | some pd =>
      obtain ⟨p, q⟩ := pd
      rw [relayEventHandler_some ca vc now ev s p q hdec, if_pos h]

/-- Claim C6 witness: a correctly decoding message whose sender is the local
address `"me"`, lying in a visible chunk, still leaves the state unchanged. -/
theorem C6_self_suppression_witness :
    (("me" : String) = "me")
    ∧ relayEventHandler "me" (fun _ => some true) 0
        ⟨encodeMessage [some 1, some 0, some 0] [some 0, some 0, some 0, some 1], "me"⟩
        (fun _ => clearedPlayerComponents)
      = (fun _ => clearedPlayerComponents) :=
  ⟨rfl,
   C6_self_suppression "me" (fun _ => some true) 0
     ⟨encodeMessage [some 1, some 0, some 0] [some 0, some 0, some 0, some 1], "me"⟩
     (fun _ => clearedPlayerComponents) rfl⟩

/-- Claim C7: the sweep period is 2000 ms and the timeout 1000 ms; at a sweep
tick at time `now`, every entity with a PlayerLastMessage timestamp `l` with
`now - l > TIMEOUT` has all four player components removed, every entity with
`now - l ≤ TIMEOUT` is untouched, and every entity without PlayerLastMessage
is untouched. -/
theorem C7_liveness_sweep :
    UNRESPONSIVE_PLAYER_CLEANUP = 2000 ∧ TIMEOUT = 1000
    ∧ (∀ (now : ℤ) (s : ECSState) (a : String) (l : ℤ),
        (s a).playerLastMessage = some l →
          (now - l > TIMEOUT → livenessSweep now s a = clearedPlayerComponents)
          ∧ (now - l ≤ TIMEOUT → livenessSweep now s a = s a))
    ∧ (∀ (now : ℤ) (s : ECSState) (a : String),
        (s a).playerLastMessage = none → livenessSweep now s a = s a) := by
  refine ⟨rfl, rfl, fun now s a l hl => ⟨fun hgt => ?_, fun hle => ?_⟩,
    fun now s a hl => livenessSweep_none now s a hl⟩
  · rw [livenessSweep_some now s a l hl, if_pos (by omega)]
    rfl
  · rw [livenessSweep_some now s a l hl, if_neg (by omega)]

/-- Claim C7 witness: at `now = 3000`, an entity last heard from at `l = 500`
(now - l = 2500 > 1000) is fully cleared, and an entity last heard from at
`l = 2500` (now - l = 500 ≤ 1000) is untouched. -/
theorem C7_liveness_sweep_witness :
    ((fun _ => (⟨none, none, none, some 500⟩ : PlayerComponents)) "p").playerLastMessage
      = some 500
    ∧ ((3000 : ℤ) - 500 > TIMEOUT)
    ∧ livenessSweep 3000 (fun _ => (⟨none, none, none, some 500⟩ : PlayerComponents)) "p"
      = clearedPlayerComponents
    ∧ ((3000 : ℤ) - 2500 ≤ TIMEOUT)
    ∧ livenessSweep 3000 (fun _ => (⟨none, none, none, some 2500⟩ : PlayerComponents)) "p"
      = (fun _ => (⟨none, none, none, some 2500⟩ : PlayerComponents)) "p" :=
  ⟨rfl, by decide,
   ((C7_liveness_sweep.2.2.1 3000 (fun _ => ⟨none, none, none, some 500⟩) "p" 500 rfl).1
     (by decide)),
   by decide,
   ((C7_liveness_sweep.2.2.1 3000 (fun _ => ⟨none, none, none, some 2500⟩) "p" 2500 rfl).2
     (by decide))⟩

/-- Claim C10: the inbound-message handler never sets
PlayerRelayerChunkPosition (it leaves that component of every entity
unchanged); whenever it changes an entity it sets exactly PlayerPosition,
PlayerDirection and PlayerLastMessage on it; consequently, in any state whose
entities all lack PlayerRelayerChunkPosition (as is the case for every
player created by the handler), the removed-chunk eviction query matches
nothing and the eviction handler is the identity. -/
theorem C10_receiver_components :
    (∀ (ca : String) (vc : ChunkCoord → Option Bool) (now : ℤ) (ev : RelayEvent)
        (s : ECSState) (a : String),
      (relayEventHandler ca vc now ev s a).playerRelayerChunkPosition
        = (s a).playerRelayerChunkPosition)
    ∧ (∀ (ca : String) (vc : ChunkCoord → Option Bool) (now : ℤ) (ev : RelayEvent)
        (s : ECSState) (a : String),
      relayEventHandler ca vc now ev s a ≠ s a →
        (relayEventHandler ca vc now ev s a).playerPosition.isSome = true
        ∧ (relayEventHandler ca vc now ev s a).playerDirection.isSome = true
        ∧ (relayEventHandler ca vc now ev s a).playerLastMessage = some now)
    ∧ (∀ (chunk : ChunkCoord) (s : ECSState),
      (∀ a, (s a).playerRelayerChunkPosition = none) → removedChunkHandler chunk s = s) := by
  refine ⟨?_, ?_, ?_⟩
  · intro ca vc now ev s a
    cases hdec : decodeMessage ev.data with
    | none => rw [relayEventHandler_none ca vc now ev s hdec]
    | some pd =>
        obtain ⟨p, q⟩ := pd
        rw [relayEventHandler_some ca vc now ev s p q hdec]
        by_cases h1 : ev.address = ca
        · rw [if_pos h1]
        · rw [if_neg h1]
          by_cases h2 : vc (pixelToChunkCoord (p.getD 0 0, p.getD 2 0) RELAY_CHUNK_SIZE)
              = some true
          · rw [if_pos h2]
            by_cases h3 : a = ev.address
            · simp [h3]
            · simp only [if_neg h3]
          · rw [if_neg h2]
  · intro ca vc now ev s a h
    cases hdec : decodeMessage ev.data with
    | none => exact absurd (congrFun (relayEventHandler_none ca vc now ev s hdec) a) h
    | some pd =>
        obtain ⟨p, q⟩ := pd
        rw [relayEventHandler_some ca vc now ev s p q hdec] at h ⊢
        by_cases h1 : ev.address = ca
        · rw [if_pos h1] at h
          exact absurd rfl h
        · rw [if_neg h1] at h ⊢
          by_cases h2 : vc (pixelToChunkCoord (p.getD 0 0, p.getD 2 0) RELAY_CHUNK_SIZE)
              = some true
          · rw [if_pos h2] at h ⊢
            by_cases h3 : a = ev.address
            · simp only [h3, if_pos rfl]
              exact ⟨rfl, rfl, rfl⟩
            · simp only [if_neg h3] at h
              exact absurd rfl h
          · rw [if_neg h2] at h
            exact absurd rfl h
  · intro chunk s hall
    funext a
    unfold removedChunkHandler
    rw [if_neg]
    unfold matchesRemovedChunkQuery
    rw [hall a]
    simp

/-- Claim C10 witness: the handler applied to a correctly decoding visible
message from `"peer"` changes the `"peer"` entity, sets its position,
direction and last-message time, and leaves PlayerRelayerChunkPosition
absent; the eviction handler is then the identity on the resulting kind of
state. -/
theorem C10_receiver_components_witness :
    (relayEventHandler "me" (fun _ => some true) 7
        ⟨encodeMessage [some 1, some 0, some 0] [some 0, some 0, some 0, some 1], "peer"⟩
        (fun _ => clearedPlayerComponents) "peer").playerRelayerChunkPosition
      = ((fun _ => clearedPlayerComponents) "peer").playerRelayerChunkPosition
    ∧ (relayEventHandler "me" (fun _ => some true) 7
        ⟨encodeMessage [some 1, some 0, some 0] [some 0, some 0, some 0, some 1], "peer"⟩
        (fun _ => clearedPlayerComponents) "peer").playerLastMessage = some 7
    ∧ removedChunkHandler ⟨0, 0⟩ (fun _ => clearedPlayerComponents)
      = (fun _ => clearedPlayerComponents) := by
  have hdec : decodeMessage (encodeMessage [some 1, some 0, some 0]
      [some 0, some 0, some 0, some 1]) = some ([1, 0, 0], [0, 0, 0, 1]) := by
    rw [decode_encode [some 1, some 0, some 0] [some 0, some 0, some 0, some 1]
      (by rfl) (by rfl)]
    norm_num [toFixedPointJS, toFixedPoint, toInt32, fromFixedPoint, PRECISION]
  have hne : relayEventHandler "me" (fun _ => some true) 7
      ⟨encodeMessage [some 1, some 0, some 0] [some 0, some 0, some 0, some 1], "peer"⟩
      (fun _ => clearedPlayerComponents) "peer"
      ≠ (fun _ => clearedPlayerComponents) "peer" := by
    rw [relayEventHandler_some _ _ _ _ _ [1, 0, 0] [0, 0, 0, 1] hdec,
      if_neg (by decide), if_pos rfl]
    intro hc
    exact Option.noConfusion (congrArg PlayerComponents.playerLastMessage hc)
  exact ⟨C10_receiver_components.1 "me" (fun _ => some true) 7
      ⟨encodeMessage [some 1, some 0, some 0] [some 0, some 0, some 0, some 1], "peer"⟩
      (fun _ => clearedPlayerComponents) "peer",
    (C10_receiver_components.2.1 "me" (fun _ => some true) 7
      ⟨encodeMessage [some 1, some 0, some 0] [some 0, some 0, some 0, some 1], "peer"⟩
      (fun _ => clearedPlayerComponents) "peer" hne).2.2,
    C10_receiver_components.2.2 ⟨0, 0⟩ (fun _ => clearedPlayerComponents) (fun a => rfl)⟩

/-- Claim C8 (amended): with chunk size 64 and half-length 64, an observer at
`(0,0,0)` yields the Area `[-64,-64,128,128]`, whose covered chunks are
exactly `(-1,-1)` through `(1,1)` (a 3-by-3 neighborhood, as in spec section
4.3); after the observer moves to `(200,0,0)` the Area becomes
`[136,-64,128,128]` with covered chunks exactly `(2,-1)` through `(4,1)`;
the two ranges are disjoint, so the removed chunks are exactly
`(-1..1, -1..1)` and the added chunks exactly `(2..4, -1..1)`. -/
theorem C8_area_scenario :
    currentArea (0, 0, 0) = ⟨-64, -64, 128, 128⟩
    ∧ currentArea (200, 0, 0) = ⟨136, -64, 128, 128⟩
    ∧ (∀ c : ChunkCoord, chunkInArea (currentArea (0, 0, 0)) 64 c ↔
        (-1 ≤ c.x ∧ c.x ≤ 1 ∧ -1 ≤ c.y ∧ c.y ≤ 1))
    ∧ (∀ c : ChunkCoord, chunkInArea (currentArea (200, 0, 0)) 64 c ↔
        (2 ≤ c.x ∧ c.x ≤ 4 ∧ -1 ≤ c.y ∧ c.y ≤ 1))
    ∧ (∀ c : ChunkCoord, removedChunk (currentArea (0, 0, 0)) (currentArea (200, 0, 0)) 64 c ↔
        (-1 ≤ c.x ∧ c.x ≤ 1 ∧ -1 ≤ c.y ∧ c.y ≤ 1))
    ∧ (∀ c : ChunkCoord, addedChunk (currentArea (0, 0, 0)) (currentArea (200, 0, 0)) 64 c ↔
        (2 ≤ c.x ∧ c.x ≤ 4 ∧ -1 ≤ c.y ∧ c.y ≤ 1)) := by
  have h1 : ∀ c : ChunkCoord, chunkInArea (currentArea (0, 0, 0)) 64 c ↔
      (-1 ≤ c.x ∧ c.x ≤ 1 ∧ -1 ≤ c.y ∧ c.y ≤ 1) := by
    intro c
    unfold chunkInArea currentArea pixelToChunkCoord HALF_LENGTH RELAY_CHUNK_SIZE
    norm_num
  have h2 : ∀ c : ChunkCoord, chunkInArea (currentArea (200, 0, 0)) 64 c ↔
      (2 ≤ c.x ∧ c.x ≤ 4 ∧ -1 ≤ c.y ∧ c.y ≤ 1) := by
    intro c
    unfold chunkInArea currentArea pixelToChunkCoord HALF_LENGTH RELAY_CHUNK_SIZE
    norm_num
  refine ⟨?_, ?_, h1, h2, ?_, ?_⟩
  · unfold currentArea HALF_LENGTH RELAY_CHUNK_SIZE
    norm_num [Area.mk.injEq]
  · unfold currentArea HALF_LENGTH RELAY_CHUNK_SIZE
    norm_num [Area.mk.injEq]
  · intro c
    unfold removedChunk
    rw [h1 c, h2 c]
    omega
  · intro c
    unfold addedChunk
    rw [h1 c, h2 c]
    omega

/-- Claim C8 witness: chunk `(1,1)` is covered by the initial area, chunk
`(-1,-1)` is removed by the move to `(200,0,0)`, and chunk `(2,0)` is
added. -/
theorem C8_area_scenario_witness :
    chunkInArea (currentArea (0, 0, 0)) 64 ⟨1, 1⟩
    ∧ removedChunk (currentArea (0, 0, 0)) (currentArea (200, 0, 0)) 64 ⟨-1, -1⟩
    ∧ addedChunk (currentArea (0, 0, 0)) (currentArea (200, 0, 0)) 64 ⟨2, 0⟩ :=
  ⟨(C8_area_scenario.2.2.1 ⟨1, 1⟩).mpr (by decide),
   (C8_area_scenario.2.2.2.2.1 ⟨-1, -1⟩).mpr (by decide),
   (C8_area_scenario.2.2.2.2.2 ⟨2, 0⟩).mpr (by decide)⟩

/-- Claim C8 counterexample: chunk `(-2,-2)` is NOT covered by the initial
area `[-64,-64,128,128]` (the claim says the initial set is `(-2,-2)`
through `(1,1)`); chunk `(0,0)` IS removed when the observer moves to
`(200,0,0)` (the claim says only `(-2,*)` and `(-1,*)` are removed); and
chunk `(4,0)` IS added (the claim says only `(2,*)` and `(3,*)` are
added). -/
theorem C8_cex :
    ¬ chunkInArea (currentArea (0, 0, 0)) 64 ⟨-2, -2⟩
    ∧ removedChunk (currentArea (0, 0, 0)) (currentArea (200, 0, 0)) 64 ⟨0, 0⟩
    ∧ addedChunk (currentArea (0, 0, 0)) (currentArea (200, 0, 0)) 64 ⟨4, 0⟩ := by
  refine ⟨?_, ⟨?_, ?_⟩, ⟨?_, ?_⟩⟩ <;>
    norm_num [chunkInArea, currentArea, pixelToChunkCoord, HALF_LENGTH, RELAY_CHUNK_SIZE]

end Relay
